import Mathlib

/-!
Verification development for `beyond_correlation`
(`src/beyond_correlation/discover.py`).

The source is a single-module Python program built on pandas and
scikit-learn.  We embed it shallowly:

* a pandas `DataFrame` becomes an ordered list of named columns, each
  column a list of cells, where a cell is `Option Value` (`none` is a
  missing value / NaN) and a value is either a rational number or a
  string (pandas "object" dtype);
* the external machine-learning capability (`cross_val_score` over a
  random-forest estimator) and the correlation primitive
  (`DataFrame.corr`) are out-of-scope library capabilities per the spec,
  so they are taken as explicit function parameters of the embedding;
* Python exceptions (`AssertionError` for a bad method name,
  `ZeroDivisionError` in the drop-fraction computation) become an
  `Except` error value;
* `sklearn.preprocessing.LabelEncoder.fit_transform` is the
  categorical-encoding primitive: each distinct observed value is mapped
  to its index in the sorted sequence of distinct observed values, i.e.
  to the number of distinct observed values strictly below it.
-/

namespace BeyondCorrelation

/-- A scalar stored in a dataframe cell: numeric, or a Python object
(string), which is what makes a column have dtype `'O'`. -/
inductive Value where
  | num (q : Rat)
  | str (s : String)
deriving DecidableEq

/-- A dataframe cell; `none` models a missing value (NaN). -/
abbrev Cell := Option Value

/-- A pandas dataframe: an ordered list of named columns. -/
structure DataFrame where
  cols : List (String × List Cell)
deriving DecidableEq

/-- Python `df.columns`: the column names in order. -/
def DataFrame.colNames (df : DataFrame) : List String :=
  df.cols.map Prod.fst

/-- Python `df[name]`: the cells of the first column called `name`
(pandas raises `KeyError` when absent; the embedding returns `[]`,
a case never reached by `discover`, which only selects names taken
from `df.columns`). -/
def DataFrame.getCol (df : DataFrame) (name : String) : List Cell :=
  match df.cols.find? (fun c => c.1 == name) with
  | some c => c.2
  | none => []

/-- Python `df.shape[0]`: the number of rows (length of the first column;
pandas keeps all columns the same length). -/
def DataFrame.nRows (df : DataFrame) : Nat :=
  match df.cols with
  | [] => 0
  | c :: _ => c.2.length

/-- Row indices kept by `df.dropna()`: those where every column has a
present value. -/
def DataFrame.keptRows (df : DataFrame) : List Nat :=
  (List.range df.nRows).filter
    (fun i => df.cols.all (fun c => (c.2.getD i none).isSome))

/-- Python `df.dropna()`: remove every row that has a missing value in any
column; returns a new dataframe. -/
def DataFrame.dropna (df : DataFrame) : DataFrame :=
  ⟨df.cols.map (fun c => (c.1, df.keptRows.map (fun i => c.2.getD i none)))⟩

/-- Python `df[col].dtype == 'O'`: the column holds Python objects (strings). -/
def colIsObject (cells : List Cell) : Bool :=
  cells.any (fun c => match c with
    | some (Value.str _) => true
    | _ => false)

/-- Strict order on scalar values used by the encoder's class sorting. -/
def valueLT : Value → Value → Bool
  | Value.num a, Value.num b => a < b
  | Value.str a, Value.str b => a < b
  | Value.num _, Value.str _ => true
  | Value.str _, Value.num _ => false

/-- Python `LabelEncoder().fit_transform(column)`: each present value is
replaced by its integer code, the number of distinct observed values
strictly below it (= its index in the sorted distinct values). -/
def labelCodes (cells : List Cell) : List Cell :=
  let observed := (cells.filterMap id).dedup
  cells.map (fun c => c.map (fun v =>
    Value.num ((observed.filter (fun u => valueLT u v)).length : Nat)))

/-- One iteration of the loop body of `labelencode_if_object`: when the
column has object dtype, `df_ml = df_ml.drop(columns=[col])` (a fresh
frame without that column) followed by `df_ml[col] = codes` (appending
the encoded column at the end). -/
def encodeStep (df_ml : DataFrame) (col : String) : DataFrame :=
  let cells := df_ml.getCol col
  if colIsObject cells then
    ⟨(df_ml.cols.filter (fun c => c.1 != col)) ++ [(col, labelCodes cells)]⟩
  else df_ml

/-- Python `labelencode_if_object(df_ml)`: iterate over the frame's column
names (captured once, before any rebinding) and encode each
object-dtype column. -/
def labelencode_if_object (df_ml : DataFrame) : DataFrame :=
  df_ml.colNames.foldl encodeStep df_ml

/-- An estimator instance: `RandomForestClassifier(n_estimators=50,
random_state=...)` or `RandomForestRegressor(n_estimators=50,
random_state=...)`.  Only the kind and the seed are observable. -/
inductive Estimator where
  | classifier (random_state : Option Int)
  | regressor (random_state : Option Int)
deriving DecidableEq

/-- One row of the result dataframe `df_results`. -/
structure ScoreRecord where
  feature : String
  target : String
  score : Rat
deriving DecidableEq

/-- One row of the diagnostics dataframe `df_nan_info`. -/
structure NaNInfo where
  feature : String
  target : String
  n_dropped_na : Nat
  pct_dropped_na : Rat
deriving DecidableEq

/-- How a `discover` call can fail: the method-name assertion
(`AssertionError`), or the unguarded `n_dropped_na /
rows_before_drop_na` on a pair with zero original rows
(`ZeroDivisionError`). -/
inductive DiscoverError where
  | invalidMethod (msg : String)
  | zeroDivision
deriving DecidableEq

/-- The return value of `discover`: `df_results` alone, or the pair
`(df_results, df_nan_info)` when `include_na_information` is set. -/
inductive DiscoverResult where
  | single (df_results : List ScoreRecord)
  | withNa (df_results : List ScoreRecord) (df_nan_info : List NaNInfo)
deriving DecidableEq

/-- The score table carried by either shape of result. -/
def resultsOf : DiscoverResult → List ScoreRecord
  | DiscoverResult.single ds => ds
  | DiscoverResult.withNa ds _ => ds

/-- Python `corr_methods = ["pearson", 'spearman', 'kendall']`. -/
def corr_methods : List String := ["pearson", "spearman", "kendall"]

/-- Python `known_methods = corr_methods + ['rf']`. -/
def known_methods : List String := corr_methods ++ ["rf"]

/-- The assertion message of the f-string listing `known_methods`. -/
def methodsMsg : String :=
  "Expecting method to be one of: " ++ toString known_methods

/-- The `estimator_mapping` built at the top of `discover`: one
estimator per column, a classifier when the column name is in
`classifier_overrides`, a regressor otherwise. -/
def buildEstimatorMapping (cols : List String) (overrides : List String)
    (random_state : Option Int) : List (String × Estimator) :=
  cols.map (fun col =>
    (col, if col ∈ overrides then Estimator.classifier random_state
          else Estimator.regressor random_state))

/-- Python `estimator_mapping[target]` (always present for targets drawn from
the frame's columns). -/
def estFor (mapping : List (String × Estimator)) (target : String) :
    Estimator :=
  match mapping.find? (fun e => e.1 == target) with
  | some e => e.2
  | none => Estimator.regressor none

/-- Python `df[[feature, target]]`: a fresh two-column frame copied out of the
dataset. -/
def pairFrame (df : DataFrame) (feature target : String) : DataFrame :=
  ⟨[(feature, df.getCol feature), (target, df.getCol target)]⟩

/-- The prepared pair: `df[[feature, target]].dropna()`. -/
def preparePair (df : DataFrame) (feature target : String) : DataFrame :=
  (pairFrame df feature target).dropna

/-- The numeric entries of a column, as fed to the scoring capability
(after dropna and label-encoding every cell is a present number). -/
def ratColumn (cells : List Cell) : List Rat :=
  cells.filterMap (fun c => match c with
    | some (Value.num q) => some q
    | _ => none)

/-- The `nan_info` record built for a pair: rows before dropna, rows
after, count and fraction dropped. -/
def nanInfoOf (df : DataFrame) (feature target : String) : NaNInfo :=
  let rows_before := (pairFrame df feature target).nRows
  let rows_after := (preparePair df feature target).nRows
  let n_dropped_na := rows_before - rows_after
  { feature := feature, target := target, n_dropped_na := n_dropped_na,
    pct_dropped_na := (n_dropped_na : Rat) / (rows_before : Rat) }

/-- The score computed for a pair: label-encode the prepared pair, then
either `cross_val_score(est, df_X, df_y, cv=3).mean()` for method
`"rf"`, or `pair.corr(method=method)[feature][target]` for a
correlation method (both capabilities are parameters). -/
def scoreOf (cvScore : Estimator → List Rat → List Rat → Rat)
    (corrScore : String → List Rat → List Rat → Rat)
    (est : Estimator) (method : String) (df : DataFrame)
    (feature target : String) : Rat :=
  let df_ml := labelencode_if_object (preparePair df feature target)
  let xs := ratColumn (df_ml.getCol feature)
  let ys := ratColumn (df_ml.getCol target)
  if method == "rf" then cvScore est xs ys
  else if method ∈ corr_methods then corrScore method xs ys
  else 0

/-- The body of the inner loop of `discover` for one (feature, target)
pair: select the two columns, drop NaN rows, build the `nan_info`
record (its division raises `ZeroDivisionError` when the pair had zero
rows), encode, and score. -/
def processPair (cvScore : Estimator → List Rat → List Rat → Rat)
    (corrScore : String → List Rat → List Rat → Rat)
    (df : DataFrame) (est : Estimator) (method : String)
    (feature target : String) :
    Except DiscoverError (ScoreRecord × NaNInfo) :=
  if (pairFrame df feature target).nRows = 0 then
    Except.error DiscoverError.zeroDivision
  else
    Except.ok
      ({ feature := feature, target := target,
         score := scoreOf cvScore corrScore est method df feature target },
       nanInfoOf df feature target)

/-- The ordered pairs visited by the double loop: `for idx_Y, target in
enumerate(cols): for idx_X, feature in enumerate(cols): if idx_X ==
idx_Y: continue`. -/
def loopPairs (cols : List String) : List (String × String) :=
  cols.enum.flatMap (fun p =>
    cols.enum.filterMap (fun q =>
      if q.1 = p.1 then none else some (q.2, p.2)))

/-- Run the loop body over the pairs in order, accumulating one
`ScoreRecord` and one `NaNInfo` per pair and aborting at the first
raised error. -/
def runPairs (cvScore : Estimator → List Rat → List Rat → Rat)
    (corrScore : String → List Rat → List Rat → Rat)
    (df : DataFrame) (mapping : List (String × Estimator))
    (method : String) :
    List (String × String) →
    Except DiscoverError (List (ScoreRecord × NaNInfo))
  | [] => Except.ok []
  | (feature, target) :: rest =>
    match processPair cvScore corrScore df (estFor mapping target) method
        feature target with
    | Except.error e => Except.error e
    | Except.ok r =>
      match runPairs cvScore corrScore df mapping method rest with
      | Except.error e => Except.error e
      | Except.ok rs => Except.ok (r :: rs)

/-- Python `discover(df, classifier_overrides, method, random_state,
include_na_information)`: assert the method is known, build the
estimator mapping, run the double loop, and assemble `df_results` (and
`df_nan_info` when requested). -/
def discover (cvScore : Estimator → List Rat → List Rat → Rat)
    (corrScore : String → List Rat → List Rat → Rat)
    (df : DataFrame) (classifier_overrides : Option (List String))
    (method : String) (random_state : Option Int)
    (include_na_information : Bool) :
    Except DiscoverError DiscoverResult :=
  if method ∈ known_methods then
    match runPairs cvScore corrScore df
        (buildEstimatorMapping df.colNames
          (classifier_overrides.getD []) random_state)
        method (loopPairs df.colNames) with
    | Except.error e => Except.error e
    | Except.ok recs =>
      if include_na_information then
        Except.ok (DiscoverResult.withNa (recs.map Prod.fst)
          (recs.map Prod.snd))
      else
        Except.ok (DiscoverResult.single (recs.map Prod.fst))
  else Except.error (DiscoverError.invalidMethod methodsMsg)

/-! Heap model

For the frame/mutation property (the caller's dataframe is never
modified) we re-trace the same source over an explicit heap of
dataframes.  Pandas semantics: `df[[f, t]]`, `df.dropna()` and
`df.drop(columns=[c])` each return a fresh frame; the only in-place
mutation in the source is the column assignment
`df_ml[col] = replacement_series` inside `labelencode_if_object`, which
writes to the (local) frame it is applied to. -/

/-- A heap of dataframe objects, addressed by allocation index. -/
abbrev Heap := List DataFrame

/-- Dereference a frame. -/
def heapRead (h : Heap) (r : Nat) : DataFrame := h.getD r ⟨[]⟩

/-- Allocate a fresh frame, returning the new heap and its address. -/
def heapAlloc (h : Heap) (d : DataFrame) : Heap × Nat :=
  (h ++ [d], h.length)

/-- Overwrite the frame at an address (in-place mutation). -/
def heapWrite (h : Heap) (r : Nat) (d : DataFrame) : Heap := h.set r d

/-- Python `df[[feature, target]]` on the heap: read the source frame and
allocate a fresh two-column copy. -/
def selectPair_st (h : Heap) (r : Nat) (feature target : String) :
    Heap × Nat :=
  heapAlloc h (pairFrame (heapRead h r) feature target)

/-- Python `df_ml.dropna()` on the heap: allocates the result frame. -/
def dropna_st (h : Heap) (r : Nat) : Heap × Nat :=
  heapAlloc h (heapRead h r).dropna

/-- Python `df_ml.drop(columns=[col])` on the heap: allocates a copy without
that column. -/
def dropColumns_st (h : Heap) (r : Nat) (col : String) : Heap × Nat :=
  heapAlloc h ⟨(heapRead h r).cols.filter (fun c => c.1 != col)⟩

/-- Python `df_ml[col] = cells` on the heap: mutates the frame at `r`,
appending the column at the end. -/
def setColumn_st (h : Heap) (r : Nat) (col : String)
    (cells : List Cell) : Heap :=
  heapWrite h r ⟨(heapRead h r).cols ++ [(col, cells)]⟩

/-- One iteration of the `labelencode_if_object` loop on the heap. -/
def encodeStep_st (h : Heap) (r : Nat) (col : String) : Heap × Nat :=
  let cells := (heapRead h r).getCol col
  if colIsObject cells then
    let s := dropColumns_st h r col
    (setColumn_st s.1 s.2 col (labelCodes cells), s.2)
  else (h, r)

/-- Python `labelencode_if_object(df_ml)` on the heap: the column list is
captured once from the frame, then each object column is re-encoded. -/
def labelencode_st (h : Heap) (r : Nat) : Heap × Nat :=
  (heapRead h r).colNames.foldl (fun s col => encodeStep_st s.1 s.2 col)
    (h, r)

/-- The inner loop body on the heap, mirroring `processPair`. -/
def processPair_st (cvScore : Estimator → List Rat → List Rat → Rat)
    (corrScore : String → List Rat → List Rat → Rat)
    (h : Heap) (dfRef : Nat) (est : Estimator) (method : String)
    (feature target : String) :
    Heap × Except DiscoverError (ScoreRecord × NaNInfo) :=
  let s1 := selectPair_st h dfRef feature target
  let rows_before := (heapRead s1.1 s1.2).nRows
  let s2 := dropna_st s1.1 s1.2
  let rows_after := (heapRead s2.1 s2.2).nRows
  let n_dropped_na := rows_before - rows_after
  if rows_before = 0 then (s2.1, Except.error DiscoverError.zeroDivision)
  else
    let nan_info : NaNInfo :=
      { feature := feature, target := target, n_dropped_na := n_dropped_na,
        pct_dropped_na := (n_dropped_na : Rat) / (rows_before : Rat) }
    let s3 := labelencode_st s2.1 s2.2
    let xs := ratColumn ((heapRead s3.1 s3.2).getCol feature)
    let ys := ratColumn ((heapRead s3.1 s3.2).getCol target)
    let score : Rat :=
      if method == "rf" then cvScore est xs ys
      else if method ∈ corr_methods then corrScore method xs ys
      else 0
    (s3.1,
     Except.ok
       ({ feature := feature, target := target, score := score }, nan_info))

/-- The double loop on the heap, mirroring `runPairs`. -/
def runPairs_st (cvScore : Estimator → List Rat → List Rat → Rat)
    (corrScore : String → List Rat → List Rat → Rat)
    (h : Heap) (dfRef : Nat) (mapping : List (String × Estimator))
    (method : String) :
    List (String × String) →
    Heap × Except DiscoverError (List (ScoreRecord × NaNInfo))
  | [] => (h, Except.ok [])
  | (feature, target) :: rest =>
    match processPair_st cvScore corrScore h dfRef
        (estFor mapping target) method feature target with
    | (h1, Except.error e) => (h1, Except.error e)
    | (h1, Except.ok r) =>
      match runPairs_st cvScore corrScore h1 dfRef mapping method rest with
      | (h2, Except.error e) => (h2, Except.error e)
      | (h2, Except.ok rs) => (h2, Except.ok (r :: rs))

/-- Operation `discover` on the heap: same control flow as `discover`, with the
caller's dataframe living at `dfRef`. -/
def discover_st (cvScore : Estimator → List Rat → List Rat → Rat)
    (corrScore : String → List Rat → List Rat → Rat)
    (h : Heap) (dfRef : Nat) (classifier_overrides : Option (List String))
    (method : String) (random_state : Option Int)
    (include_na_information : Bool) :
    Heap × Except DiscoverError DiscoverResult :=
  if method ∈ known_methods then
    match runPairs_st cvScore corrScore h dfRef
        (buildEstimatorMapping (heapRead h dfRef).colNames
          (classifier_overrides.getD []) random_state)
        method (loopPairs (heapRead h dfRef).colNames) with
    | (h1, Except.error e) => (h1, Except.error e)
    | (h1, Except.ok recs) =>
      if include_na_information then
        (h1, Except.ok (DiscoverResult.withNa (recs.map Prod.fst)
          (recs.map Prod.snd)))
      else
        (h1, Except.ok (DiscoverResult.single (recs.map Prod.fst)))
  else (h, Except.error (DiscoverError.invalidMethod methodsMsg))

/-! Specification-side definitions

These follow the wording of the specification and are compared with the
definitions traced from the source. -/

/-- The pair order stated by the spec: target-major, feature-minor,
following the dataset's column order, self-pairs excluded. -/
def orderedPairs (cols : List String) : List (String × String) :=
  cols.flatMap (fun target =>
    (cols.filter (fun f => f != target)).map (fun f => (f, target)))

/-- The number of rows of the dataset that have a missing value in the
feature column or in the target column (the spec's characterisation of
`n_dropped`). -/
def missingRows (df : DataFrame) (feature target : String) : Nat :=
  ((List.range (df.getCol feature).length).filter
    (fun i => ((df.getCol feature).getD i none).isNone ||
              ((df.getCol target).getD i none).isNone)).length

/-! Helper lemmas: the double loop's pair enumeration -/

/-- Splitting a list's length by a Boolean predicate. -/
lemma length_filter_add_length_filter_not {α : Type} (l : List α)
    (p : α → Bool) :
    (l.filter p).length + (l.filter (fun a => !(p a))).length = l.length := by
  induction l with
  | nil => rfl
  | cons a l ih =>
    by_cases h : p a <;> simp [List.filter_cons, h, ← ih] <;> omega

/-- Skipping one index in an enumerated pass is the same as filtering
out the value at that index, provided the index and the value pick out
the same positions. -/
lemma filterMap_enumFrom_skip (i : Nat) (t : String) :
    ∀ (l : List String) (k : Nat),
      (∀ q ∈ List.enumFrom k l, q.1 = i ↔ q.2 = t) →
      (List.enumFrom k l).filterMap
          (fun q => if q.1 = i then none else some (q.2, t)) =
        (l.filter (fun f => f != t)).map (fun f => (f, t))
  | [], k, _ => rfl
  | a :: l, k, hiff => by
    have hhead : k = i ↔ a = t := hiff (k, a) (by simp [List.enumFrom_cons])
    have htail : ∀ q ∈ List.enumFrom (k + 1) l, q.1 = i ↔ q.2 = t :=
      fun q hq => hiff q (by simp [List.enumFrom_cons, hq])
    by_cases hk : k = i
    · subst hk
      have ha : a = t := hhead.mp rfl
      subst ha
      simp [List.enumFrom_cons, List.filterMap_cons, List.filter_cons,
        filterMap_enumFrom_skip k a l (k + 1) htail]
    · have ha : a ≠ t := fun h => hk (hhead.mpr h)
      simp [List.enumFrom_cons, List.filterMap_cons, hk, List.filter_cons,
        bne_iff_ne, ha, filterMap_enumFrom_skip i t l (k + 1) htail]

/-- Under distinct column names, the index-skipping double loop of the
source enumerates exactly the spec's target-major, feature-minor pairs. -/
lemma loopPairs_eq_orderedPairs {cols : List String} (hnd : cols.Nodup) :
    loopPairs cols = orderedPairs cols := by
  unfold loopPairs orderedPairs
  have hcongr : ∀ p ∈ cols.enum,
      cols.enum.filterMap
          (fun q => if q.1 = p.1 then none else some (q.2, p.2)) =
        (cols.filter (fun f => f != p.2)).map (fun f => (f, p.2)) := by
    rintro ⟨i, t⟩ hp
    have hpt : cols[i]? = some t := List.mk_mem_enum_iff_getElem?.mp hp
    refine filterMap_enumFrom_skip i t cols 0 ?_
    rintro ⟨j, f⟩ hq
    have hjf : cols[j]? = some f := by
      simpa using List.mk_mem_enum_iff_getElem?.mp (by simpa [List.enum] using hq)
    constructor
    · rintro rfl
      show f = t
      exact Option.some.inj ((hpt.symm.trans hjf).symm)
    · intro hft
      have hft' : f = t := hft
      subst hft'
      have hj : j < cols.length := by
        by_contra hge
        have : cols[j]? = none := List.getElem?_eq_none (by omega)
        simp [this] at hjf
      exact List.getElem?_inj hj hnd (hjf.trans hpt.symm)
  calc cols.enum.flatMap
        (fun p => cols.enum.filterMap
          (fun q => if q.1 = p.1 then none else some (q.2, p.2)))
      = cols.enum.flatMap
          (fun p => (cols.filter (fun f => f != p.2)).map (fun f => (f, p.2))) := by
        rw [List.flatMap, List.flatMap, List.map_congr_left hcongr]
    _ = (cols.enum.map Prod.snd).flatMap
          (fun t => (cols.filter (fun f => f != t)).map (fun f => (f, t))) := by
        rw [List.flatMap_map]
    _ = cols.flatMap
          (fun t => (cols.filter (fun f => f != t)).map (fun f => (f, t))) := by
        rw [List.enum_map_snd]

/-- Summing a constant over a list. -/
lemma sum_map_length {α : Type} (l : List α) (c : Nat) :
    (l.map (fun _ => c)).sum = l.length * c := by
  induction l with
  | nil => simp
  | cons a l ih => simp [ih, Nat.succ_mul, Nat.add_comm]

/-- The spec's pair enumeration has N × (N − 1) entries when the N
column names are distinct. -/
lemma orderedPairs_length {cols : List String} (hnd : cols.Nodup) :
    (orderedPairs cols).length = cols.length * (cols.length - 1) := by
  unfold orderedPairs
  rw [List.length_flatMap]
  have hpt : ∀ t ∈ cols,
      (List.length ∘ fun t =>
        (cols.filter (fun f => f != t)).map (fun f => (f, t))) t =
      (fun _ => cols.length - 1) t := by
    intro t ht
    simp only [Function.comp, List.length_map]
    rw [← List.Nodup.erase_eq_filter hnd t, List.length_erase_of_mem ht]
  rw [List.map_congr_left hpt, sum_map_length]

/-- Every pair the spec enumerates has distinct feature and target. -/
lemma orderedPairs_ne {cols : List String} {f t : String}
    (h : (f, t) ∈ orderedPairs cols) : f ≠ t := by
  unfold orderedPairs at h
  rw [List.mem_flatMap] at h
  obtain ⟨t', _, hmem⟩ := h
  rw [List.mem_map] at hmem
  obtain ⟨f', hf', heq⟩ := hmem
  have hfe : f' = f := congrArg Prod.fst heq
  have hte : t' = t := congrArg Prod.snd heq
  subst hfe
  subst hte
  exact bne_iff_ne.mp (List.mem_filter.mp hf').2

/-! Helper lemmas: destructuring a successful run -/

/-- A successful `processPair` means the pair had rows, and the
returned records are the score record and the NaN record of that pair. -/
lemma processPair_ok_eq {cvScore corrScore df est method}
    {feature target : String} {r : ScoreRecord × NaNInfo}
    (h : processPair cvScore corrScore df est method feature target =
      Except.ok r) :
    (pairFrame df feature target).nRows ≠ 0 ∧
      r = ({ feature := feature, target := target,
             score := scoreOf cvScore corrScore est method df
               feature target },
           nanInfoOf df feature target) := by
  unfold processPair at h
  by_cases h0 : (pairFrame df feature target).nRows = 0
  · rw [if_pos h0] at h
    exact absurd h (by simp)
  · rw [if_neg h0] at h
    exact ⟨h0, (Except.ok.inj h).symm⟩

/-- A successful `runPairs` processed every pair successfully, in
order. -/
lemma runPairs_ok_forall2 {cvScore corrScore df mapping method} :
    ∀ {ps : List (String × String)} {rs : List (ScoreRecord × NaNInfo)},
      runPairs cvScore corrScore df mapping method ps = Except.ok rs →
      List.Forall₂
        (fun (ft : String × String) (r : ScoreRecord × NaNInfo) =>
          processPair cvScore corrScore df (estFor mapping ft.2) method
            ft.1 ft.2 = Except.ok r)
        ps rs
  | [], rs, h => by
    unfold runPairs at h
    obtain rfl : ([] : List (ScoreRecord × NaNInfo)) = rs := Except.ok.inj h
    exact List.Forall₂.nil
  | (feature, target) :: rest, rs, h => by
    unfold runPairs at h
    cases h1 : processPair cvScore corrScore df (estFor mapping target)
        method feature target with
    | error e => rw [h1] at h; exact absurd h (by simp)
    | ok r =>
      rw [h1] at h
      cases h2 : runPairs cvScore corrScore df mapping method rest with
      | error e => rw [h2] at h; exact absurd h (by simp)
      | ok rs' =>
        rw [h2] at h
        obtain rfl : r :: rs' = rs := Except.ok.inj h
        exact List.Forall₂.cons h1 (runPairs_ok_forall2 h2)

/-- The three projections of a successful `runPairs`: the
(feature, target) columns of the score table reproduce the pair list,
and the score and NaN tables are pointwise images of the pair list. -/
lemma runPairs_ok_maps {cvScore corrScore df mapping method}
    {ps : List (String × String)} {rs : List (ScoreRecord × NaNInfo)}
    (h : runPairs cvScore corrScore df mapping method ps = Except.ok rs) :
    (rs.map Prod.fst).map (fun d => (d.feature, d.target)) = ps ∧
      rs.map Prod.snd =
        ps.map (fun ft => nanInfoOf df ft.1 ft.2) ∧
      rs.map Prod.fst =
        ps.map (fun ft =>
          { feature := ft.1, target := ft.2,
            score := scoreOf cvScore corrScore (estFor mapping ft.2) method
              df ft.1 ft.2 }) := by
  have hf := runPairs_ok_forall2 h
  clear h
  induction hf with
  | nil => exact ⟨rfl, rfl, rfl⟩
  | cons hpp _ ih =>
    obtain ⟨-, rfl⟩ := processPair_ok_eq hpp
    exact ⟨by simpa using ih.1, by simpa using ih.2.1, by simpa using ih.2.2⟩

/-- A successful `discover` call had a valid method and a successful
inner loop, and its tables are the projections of the loop's records. -/
lemma discover_ok {cvScore corrScore df classifier_overrides method
    random_state include_na_information r}
    (h : discover cvScore corrScore df classifier_overrides method
      random_state include_na_information = Except.ok r) :
    method ∈ known_methods ∧
      ∃ recs, runPairs cvScore corrScore df
          (buildEstimatorMapping df.colNames
            (classifier_overrides.getD []) random_state)
          method (loopPairs df.colNames) = Except.ok recs ∧
        resultsOf r = recs.map Prod.fst ∧
        ∀ ds nis, r = DiscoverResult.withNa ds nis →
          nis = recs.map Prod.snd := by
  unfold discover at h
  by_cases hm : method ∈ known_methods
  · rw [if_pos hm] at h
    refine ⟨hm, ?_⟩
    cases hrun : runPairs cvScore corrScore df
        (buildEstimatorMapping df.colNames
          (classifier_overrides.getD []) random_state)
        method (loopPairs df.colNames) with
    | error e => rw [hrun] at h; exact absurd h (by simp)
    | ok recs =>
      rw [hrun] at h
      refine ⟨recs, rfl, ?_⟩
      cases include_na_information with
      | true =>
        dsimp only at h
        obtain rfl : DiscoverResult.withNa (recs.map Prod.fst)
            (recs.map Prod.snd) = r := Except.ok.inj h
        exact ⟨rfl, fun ds nis hw => by
          obtain ⟨-, h2⟩ := DiscoverResult.withNa.inj hw
          exact h2.symm⟩
      | false =>
        dsimp only at h
        obtain rfl : DiscoverResult.single (recs.map Prod.fst) = r :=
          Except.ok.inj h
        exact ⟨rfl, fun ds nis hw => by cases hw⟩
  · rw [if_neg hm] at h
    exact absurd h (by simp)

/-! Concrete fixtures used by the witnesses -/

/-- A stand-in cross-validation capability (constant score). -/
def cv0 : Estimator → List Rat → List Rat → Rat := fun _ _ _ => 0

/-- A stand-in correlation capability (constant score). -/
def corr0 : String → List Rat → List Rat → Rat := fun _ _ _ => 0

/-- A two-column fixture dataset: a numeric column with one missing
value and an object (string) column. -/
def dfW : DataFrame :=
  ⟨[("a", [some (Value.num 1), none]),
    ("b", [some (Value.str "x"), some (Value.str "y")])]⟩

/-! Claims -/

/-- C1: for a dataset with distinct column names, a `discover` call
that returns a result table has exactly one score row per ordered
(feature, target) pair with feature ≠ target — N×(N−1) rows, no
self-pair — in target-major, feature-minor order following the
dataset's column order. -/
theorem c1_result_table_rows
    (cvScore : Estimator → List Rat → List Rat → Rat)
    (corrScore : String → List Rat → List Rat → Rat)
    (df : DataFrame) (classifier_overrides : Option (List String))
    (method : String) (random_state : Option Int)
    (include_na_information : Bool) (r : DiscoverResult)
    (hnd : df.colNames.Nodup)
    (h : discover cvScore corrScore df classifier_overrides method
      random_state include_na_information = Except.ok r) :
    (resultsOf r).map (fun d => (d.feature, d.target)) =
        orderedPairs df.colNames ∧
      (resultsOf r).length =
        df.colNames.length * (df.colNames.length - 1) ∧
      (resultsOf r).all (fun d => !(d.feature == d.target)) = true := by
  obtain ⟨-, recs, hrun, hres, -⟩ := discover_ok h
  obtain ⟨hpairs, -, -⟩ := runPairs_ok_maps hrun
  have hmap : (resultsOf r).map (fun d => (d.feature, d.target)) =
      orderedPairs df.colNames := by
    rw [hres, hpairs, loopPairs_eq_orderedPairs hnd]
  refine ⟨hmap, ?_, ?_⟩
  · have := congrArg List.length hmap
    rw [List.length_map] at this
    rw [this, orderedPairs_length hnd]
  · rw [List.all_eq_true]
    intro d hd
    have hmem : (d.feature, d.target) ∈ orderedPairs df.colNames := by
      rw [← hmap]
      exact List.mem_map_of_mem _ hd
    simpa using orderedPairs_ne hmem

/-- C1 witness: a concrete two-column run. -/
theorem c1_result_table_rows_witness :
    (resultsOf (DiscoverResult.single
        [⟨"b", "a", 0⟩, ⟨"a", "b", 0⟩])).map
          (fun d => (d.feature, d.target)) =
        orderedPairs dfW.colNames ∧
      (resultsOf (DiscoverResult.single
        [⟨"b", "a", 0⟩, ⟨"a", "b", 0⟩])).length =
        dfW.colNames.length * (dfW.colNames.length - 1) ∧
      (resultsOf (DiscoverResult.single
        [⟨"b", "a", 0⟩, ⟨"a", "b", 0⟩])).all
          (fun d => !(d.feature == d.target)) = true :=
  c1_result_table_rows cv0 corr0 dfW none "pearson" none false
    (DiscoverResult.single [⟨"b", "a", 0⟩, ⟨"a", "b", 0⟩])
    (by decide) rfl

/-- Helper: `runPairs` only ever raises the division-by-zero error, never the
method assertion. -/
lemma runPairs_error_eq {cvScore corrScore df mapping method} :
    ∀ {ps : List (String × String)} {e : DiscoverError},
      runPairs cvScore corrScore df mapping method ps = Except.error e →
      e = DiscoverError.zeroDivision
  | [], e, h => by
    unfold runPairs at h
    exact absurd h (by simp)
  | (feature, target) :: rest, e, h => by
    unfold runPairs at h
    cases h1 : processPair cvScore corrScore df (estFor mapping target)
        method feature target with
    | error e' =>
      rw [h1] at h
      unfold processPair at h1
      by_cases h0 : (pairFrame df feature target).nRows = 0
      · rw [if_pos h0] at h1
        obtain rfl : DiscoverError.zeroDivision = e' := Except.error.inj h1
        exact (Except.error.inj h).symm
      · rw [if_neg h0] at h1
        exact absurd h1 (by simp)
    | ok r =>
      rw [h1] at h
      cases h2 : runPairs cvScore corrScore df mapping method rest with
      | error e' =>
        rw [h2] at h
        obtain rfl : e' = e := Except.error.inj h
        exact runPairs_error_eq h2
      | ok rs =>
        rw [h2] at h
        exact absurd h (by simp)

/-- C2: an unknown method name makes `discover` fail with the
invalid-argument message — a fixed error value, independent of the
dataset and every other argument, so no pair has been processed and
the supported methods all occur in the message — while a known method
never triggers that failure. -/
theorem c2_method_validation
    (cvScore : Estimator → List Rat → List Rat → Rat)
    (corrScore : String → List Rat → List Rat → Rat)
    (df : DataFrame) (classifier_overrides : Option (List String))
    (random_state : Option Int) (include_na_information : Bool)
    (bad good : String)
    (hbad : bad ∉ known_methods) (hgood : good ∈ known_methods) :
    (discover cvScore corrScore df classifier_overrides bad
        random_state include_na_information =
      Except.error (DiscoverError.invalidMethod methodsMsg)) ∧
    (∀ m ∈ known_methods, m.data <:+: methodsMsg.data) ∧
    (∀ msg, discover cvScore corrScore df classifier_overrides good
        random_state include_na_information ≠
      Except.error (DiscoverError.invalidMethod msg)) := by
  refine ⟨?_, by decide, ?_⟩
  · unfold discover
    rw [if_neg hbad]
  · intro msg hcontra
    rename' hgood => hm
    rename' good => method
    unfold discover at hcontra
    rw [if_pos hm] at hcontra
    cases hrun : runPairs cvScore corrScore df
        (buildEstimatorMapping df.colNames
          (classifier_overrides.getD []) random_state)
        method (loopPairs df.colNames) with
    | error e =>
      rw [hrun] at hcontra
      have : e = DiscoverError.zeroDivision := runPairs_error_eq hrun
      subst this
      exact absurd (Except.error.inj hcontra) (by simp)
    | ok recs =>
      rw [hrun] at hcontra
      cases include_na_information with
      | true => dsimp only at hcontra; exact absurd hcontra (by simp)
      | false => dsimp only at hcontra; exact absurd hcontra (by simp)

/-- C2 witness: the unknown method `"foo"` fails with the message and
the known method `"rf"` does not. -/
theorem c2_method_validation_witness :
    (discover cv0 corr0 dfW none "foo" none false =
      Except.error (DiscoverError.invalidMethod methodsMsg)) ∧
    (∀ m ∈ known_methods, m.data <:+: methodsMsg.data) ∧
    (∀ msg, discover cv0 corr0 dfW none "rf" none false ≠
      Except.error (DiscoverError.invalidMethod msg)) :=
  c2_method_validation cv0 corr0 dfW none none false "foo" "rf"
    (by decide) (by decide)

/-- A named column's cells have the dataset's common row count. -/
lemma getCol_length {df : DataFrame} {n : Nat}
    (hlen : ∀ c ∈ df.cols, c.2.length = n) {f : String}
    (hf : f ∈ df.colNames) : (df.getCol f).length = n := by
  unfold DataFrame.getCol
  cases hfind : df.cols.find? (fun c => c.1 == f) with
  | none =>
    exfalso
    rw [List.find?_eq_none] at hfind
    obtain ⟨c, hc, hcf⟩ := List.mem_map.mp hf
    exact hfind c hc (by simp [hcf])
  | some c => exact hlen c (List.mem_of_find?_eq_some hfind)

/-- The rows kept for a pair: indices where both columns are present. -/
lemma keptRows_pairFrame (df : DataFrame) (feature target : String) :
    (pairFrame df feature target).keptRows =
      (List.range (df.getCol feature).length).filter
        (fun i => ((df.getCol feature).getD i none).isSome &&
                  ((df.getCol target).getD i none).isSome) := by
  unfold DataFrame.keptRows pairFrame DataFrame.nRows
  simp

/-- Row count of the prepared pair. -/
lemma preparePair_nRows (df : DataFrame) (feature target : String) :
    (preparePair df feature target).nRows =
      (pairFrame df feature target).keptRows.length := by
  simp [preparePair, DataFrame.dropna, DataFrame.nRows, pairFrame]

/-- The dropped-row count of a pair is the number of rows with a
missing value in either column. -/
lemma n_dropped_eq_missingRows (df : DataFrame) (feature target : String) :
    (pairFrame df feature target).nRows -
        (preparePair df feature target).nRows =
      missingRows df feature target := by
  have hrows : (pairFrame df feature target).nRows =
      (df.getCol feature).length := rfl
  rw [hrows, preparePair_nRows, keptRows_pairFrame]
  unfold missingRows
  have hcong :
      (List.range (df.getCol feature).length).filter
          (fun i => ((df.getCol feature).getD i none).isNone ||
                    ((df.getCol target).getD i none).isNone) =
        (List.range (df.getCol feature).length).filter
          (fun i => !(((df.getCol feature).getD i none).isSome &&
                      ((df.getCol target).getD i none).isSome)) := by
    refine List.filter_congr (fun i _ => ?_)
    cases (df.getCol feature).getD i none <;>
      cases (df.getCol target).getD i none <;> rfl
  rw [hcong]
  have hsplit := length_filter_add_length_filter_not
    (List.range (df.getCol feature).length)
    (fun i => ((df.getCol feature).getD i none).isSome &&
              ((df.getCol target).getD i none).isSome)
  rw [List.length_range] at hsplit
  omega

/-- C3: for a dataset with at least one row, the NaN record of a pair
reports `n_dropped` equal to the number of rows with a missing value in
the feature or the target column and `pct_dropped` equal to that count
divided by the pre-removal row count, a fraction between 0 and 1; and
in a `discover` call with diagnostics the NaN table consists of exactly
these records, one per visited pair. -/
theorem c3_nan_accounting
    (cvScore : Estimator → List Rat → List Rat → Rat)
    (corrScore : String → List Rat → List Rat → Rat)
    (df : DataFrame) (classifier_overrides : Option (List String))
    (method : String) (random_state : Option Int)
    (feature target : String) (n : Nat)
    (hn : 0 < n) (hlen : ∀ c ∈ df.cols, c.2.length = n)
    (hf : feature ∈ df.colNames) (ht : target ∈ df.colNames)
    (hft : feature ≠ target) :
    nanInfoOf df feature target =
      { feature := feature, target := target,
        n_dropped_na := missingRows df feature target,
        pct_dropped_na :=
          (missingRows df feature target : Rat) / (n : Rat) } ∧
    0 ≤ (nanInfoOf df feature target).pct_dropped_na ∧
    (nanInfoOf df feature target).pct_dropped_na ≤ 1 ∧
    (∀ ds nis,
      discover cvScore corrScore df classifier_overrides method
          random_state true = Except.ok (DiscoverResult.withNa ds nis) →
      nis = (loopPairs df.colNames).map
        (fun ft => nanInfoOf df ft.1 ft.2)) := by
  have hflen : (df.getCol feature).length = n := getCol_length hlen hf
  have hmiss_le : missingRows df feature target ≤ n := by
    unfold missingRows
    rw [hflen]
    have h1 := List.length_filter_le
      (fun i => ((df.getCol feature).getD i none).isNone ||
                ((df.getCol target).getD i none).isNone)
      (List.range n)
    simpa using h1
  have hbefore : (pairFrame df feature target).nRows = n := by
    show (df.getCol feature).length = n
    exact hflen
  have hrec : nanInfoOf df feature target =
      { feature := feature, target := target,
        n_dropped_na := missingRows df feature target,
        pct_dropped_na :=
          (missingRows df feature target : Rat) / (n : Rat) } := by
    simp only [nanInfoOf]
    rw [n_dropped_eq_missingRows, hbefore]
  refine ⟨hrec, ?_, ?_, ?_⟩
  · rw [hrec]
    exact div_nonneg (Nat.cast_nonneg _) (Nat.cast_nonneg _)
  · rw [hrec]
    have hnpos : (0 : Rat) < (n : Rat) := by
      exact_mod_cast hn
    exact (div_le_one hnpos).mpr (by exact_mod_cast hmiss_le)
  · intro ds nis h
    obtain ⟨-, recs, hrun, -, hna⟩ := discover_ok h
    obtain ⟨-, hnan, -⟩ := runPairs_ok_maps hrun
    rw [hna ds nis rfl, hnan]

/-- C3 witness: in `dfW` exactly one row has a missing value in column
`a`, and the pair (a, b) reports `n_dropped = 1`, `pct = 1/2`. -/
theorem c3_nan_accounting_witness :
    (nanInfoOf dfW "a" "b" =
      { feature := "a", target := "b",
        n_dropped_na := missingRows dfW "a" "b",
        pct_dropped_na :=
          (missingRows dfW "a" "b" : Rat) / ((2 : Nat) : Rat) } ∧
    0 ≤ (nanInfoOf dfW "a" "b").pct_dropped_na ∧
    (nanInfoOf dfW "a" "b").pct_dropped_na ≤ 1 ∧
    (∀ ds nis,
      discover cv0 corr0 dfW none "kendall" none true =
          Except.ok (DiscoverResult.withNa ds nis) →
      nis = (loopPairs dfW.colNames).map
        (fun ft => nanInfoOf dfW ft.1 ft.2))) ∧
    missingRows dfW "a" "b" = 1 :=
  ⟨c3_nan_accounting cv0 corr0 dfW none "kendall" none "a" "b" 2
      (by decide) (by decide) (by decide) (by decide) (by decide),
    by decide⟩

/-- C4: `discover` builds exactly one estimator binding per column
name — the key sequence of the mapping is exactly the column-name
sequence, so a name occurring once among the columns has exactly one
binding — a binding is a classifier exactly when the name is in
`classifier_overrides` and a regressor otherwise, and the mapping is a
function of the column names alone, identical for any dataset with the
same columns regardless of its data. -/
theorem c4_estimator_bindings
    (df df2 : DataFrame) (overrides : List String)
    (random_state : Option Int) (col : String) (est : Estimator)
    (hnd : df.colNames.Nodup) (hcol : col ∈ df.colNames)
    (h2 : df2.colNames = df.colNames) :
    (buildEstimatorMapping df.colNames overrides random_state).map
        Prod.fst = df.colNames ∧
    ((buildEstimatorMapping df.colNames overrides random_state).filter
        (fun e => e.1 == col)).length = 1 ∧
    ((col, est) ∈ buildEstimatorMapping df.colNames overrides random_state
      ↔ est = if col ∈ overrides then Estimator.classifier random_state
              else Estimator.regressor random_state) ∧
    estFor (buildEstimatorMapping df.colNames overrides random_state) col =
      (if col ∈ overrides then Estimator.classifier random_state
       else Estimator.regressor random_state) ∧
    buildEstimatorMapping df2.colNames overrides random_state =
      buildEstimatorMapping df.colNames overrides random_state := by
  refine ⟨?_, ?_, ?_, ?_, by rw [h2]⟩
  · have hid : (Prod.fst ∘ fun c => (c,
        if c ∈ overrides then Estimator.classifier random_state
        else Estimator.regressor random_state)) = id := rfl
    rw [buildEstimatorMapping, List.map_map, hid, List.map_id]
  · rw [buildEstimatorMapping, List.filter_map]
    rw [List.length_map]
    have hc : (fun (e : String × Estimator) => e.1 == col) ∘
        (fun c => (c, if c ∈ overrides then
          Estimator.classifier random_state
          else Estimator.regressor random_state)) =
        (fun c => c == col) := rfl
    rw [hc, ← List.countP_eq_length_filter, ← List.count_eq_countP,
      List.count_eq_one_of_mem hnd hcol]
  · constructor
    · intro hmem
      obtain ⟨c, -, heq⟩ := List.mem_map.mp hmem
      have hc : c = col := congrArg Prod.fst heq
      subst hc
      exact (congrArg Prod.snd heq).symm
    · intro hest
      subst hest
      exact List.mem_map_of_mem _ hcol
  · unfold estFor
    obtain ⟨c, hc, hcf⟩ := List.mem_map.mp hcol
    cases hfind : (buildEstimatorMapping df.colNames overrides
        random_state).find? (fun e => e.1 == col) with
    | none =>
      exfalso
      rw [List.find?_eq_none] at hfind
      exact hfind (col, if col ∈ overrides then
          Estimator.classifier random_state
          else Estimator.regressor random_state)
        (List.mem_map_of_mem _ hcol) (by simp)
    | some e =>
      have hmem := List.mem_of_find?_eq_some hfind
      have hkey : e.1 = col := by
        have := List.find?_some hfind
        simpa using this
      obtain ⟨c', -, heq⟩ := List.mem_map.mp hmem
      have hc' : c' = col := by
        have := congrArg Prod.fst heq
        simpa [hkey] using this
      subst hc'
      have := congrArg Prod.snd heq
      simpa using this.symm

/-- C4 witness: two columns, one override, checked on two datasets with
the same columns but different data. -/
theorem c4_estimator_bindings_witness :
    (buildEstimatorMapping dfW.colNames ["b"] (some 7)).map
        Prod.fst = dfW.colNames ∧
    ((buildEstimatorMapping dfW.colNames ["b"] (some 7)).filter
        (fun e => e.1 == "b")).length = 1 ∧
    (("b", Estimator.classifier (some 7)) ∈
        buildEstimatorMapping dfW.colNames ["b"] (some 7)
      ↔ Estimator.classifier (some 7) =
          if "b" ∈ ["b"] then Estimator.classifier (some 7)
          else Estimator.regressor (some 7)) ∧
    estFor (buildEstimatorMapping dfW.colNames ["b"] (some 7)) "b" =
      (if "b" ∈ ["b"] then Estimator.classifier (some 7)
       else Estimator.regressor (some 7)) ∧
    buildEstimatorMapping
        (DataFrame.colNames ⟨[("a", []), ("b", [none])]⟩) ["b"] (some 7) =
      buildEstimatorMapping dfW.colNames ["b"] (some 7) :=
  c4_estimator_bindings dfW ⟨[("a", []), ("b", [none])]⟩ ["b"] (some 7)
    "b" (Estimator.classifier (some 7)) (by decide) (by decide) (by decide)

/-- C5: the `include_na_information` flag never changes the score
table: it only selects whether the NaN table is additionally returned
(and an erroring call errors identically either way). -/
theorem c5_na_flag_immaterial
    (cvScore : Estimator → List Rat → List Rat → Rat)
    (corrScore : String → List Rat → List Rat → Rat)
    (df : DataFrame) (classifier_overrides : Option (List String))
    (method : String) (random_state : Option Int) :
    (discover cvScore corrScore df classifier_overrides method
        random_state true).map resultsOf =
      (discover cvScore corrScore df classifier_overrides method
        random_state false).map resultsOf := by
  unfold discover
  by_cases hm : method ∈ known_methods
  · rw [if_pos hm, if_pos hm]
    cases runPairs cvScore corrScore df
        (buildEstimatorMapping df.colNames
          (classifier_overrides.getD []) random_state)
        method (loopPairs df.colNames) with
    | error e => rfl
    | ok recs => rfl
  · rw [if_neg hm, if_neg hm]

/-- C6: a pair's prepared sub-table, score record and NaN record depend
only on the contents of the feature and target columns: two datasets
agreeing on those two columns process the pair identically. -/
theorem c6_pairwise_dependence
    (cvScore : Estimator → List Rat → List Rat → Rat)
    (corrScore : String → List Rat → List Rat → Rat)
    (df1 df2 : DataFrame) (est : Estimator) (method : String)
    (feature target : String)
    (hfcol : df1.getCol feature = df2.getCol feature)
    (htcol : df1.getCol target = df2.getCol target) :
    pairFrame df1 feature target = pairFrame df2 feature target ∧
    preparePair df1 feature target = preparePair df2 feature target ∧
    nanInfoOf df1 feature target = nanInfoOf df2 feature target ∧
    processPair cvScore corrScore df1 est method feature target =
      processPair cvScore corrScore df2 est method feature target := by
  have hpf : pairFrame df1 feature target = pairFrame df2 feature target := by
    unfold pairFrame
    rw [hfcol, htcol]
  have hpp : preparePair df1 feature target =
      preparePair df2 feature target := by
    unfold preparePair
    rw [hpf]
  have hni : nanInfoOf df1 feature target = nanInfoOf df2 feature target := by
    simp only [nanInfoOf]
    rw [hpf, hpp]
  have hsc : scoreOf cvScore corrScore est method df1 feature target =
      scoreOf cvScore corrScore est method df2 feature target := by
    simp only [scoreOf]
    rw [hpp]
  refine ⟨hpf, hpp, hni, ?_⟩
  unfold processPair
  rw [hpf, hsc, hni]

/-- C6 witness: a third column differing between the datasets does not
change how the pair (a, b) is processed. -/
theorem c6_pairwise_dependence_witness :
    pairFrame dfW "a" "b" =
      pairFrame ⟨dfW.cols ++ [("c", [none, none])]⟩ "a" "b" ∧
    preparePair dfW "a" "b" =
      preparePair ⟨dfW.cols ++ [("c", [none, none])]⟩ "a" "b" ∧
    nanInfoOf dfW "a" "b" =
      nanInfoOf ⟨dfW.cols ++ [("c", [none, none])]⟩ "a" "b" ∧
    processPair cv0 corr0 dfW (Estimator.regressor none) "kendall" "a" "b" =
      processPair cv0 corr0 ⟨dfW.cols ++ [("c", [none, none])]⟩
        (Estimator.regressor none) "kendall" "a" "b" :=
  c6_pairwise_dependence cv0 corr0 dfW
    ⟨dfW.cols ++ [("c", [none, none])]⟩
    (Estimator.regressor none) "kendall" "a" "b" (by decide) (by decide)

/-- C7: override names that are not column names have no effect —
restricting the override set to the dataset's columns leaves the whole
result unchanged, and no error is raised for the extra names. -/
theorem c7_unknown_overrides_ignored
    (cvScore : Estimator → List Rat → List Rat → Rat)
    (corrScore : String → List Rat → List Rat → Rat)
    (df : DataFrame) (overrides : List String) (method : String)
    (random_state : Option Int) (include_na_information : Bool) :
    discover cvScore corrScore df (some overrides) method random_state
        include_na_information =
      discover cvScore corrScore df
        (some (overrides.filter (fun c => decide (c ∈ df.colNames))))
        method random_state include_na_information := by
  have hmap : buildEstimatorMapping df.colNames overrides random_state =
      buildEstimatorMapping df.colNames
        (overrides.filter (fun c => decide (c ∈ df.colNames)))
        random_state := by
    unfold buildEstimatorMapping
    refine List.map_congr_left (fun col hcol => ?_)
    have hiff : (col ∈ overrides) ↔
        (col ∈ overrides.filter (fun c => decide (c ∈ df.colNames))) := by
      rw [List.mem_filter]
      simp [hcol]
    rw [if_congr hiff rfl rfl]
  unfold discover
  rw [Option.getD_some, Option.getD_some, hmap]

/-- C10: with a correlation method the estimator bindings are never
used for scoring, so the result is independent of both the seed and the
override set. -/
theorem c10_correlation_ignores_seed_and_overrides
    (cvScore : Estimator → List Rat → List Rat → Rat)
    (corrScore : String → List Rat → List Rat → Rat)
    (df : DataFrame) (ov1 ov2 : Option (List String)) (method : String)
    (rs1 rs2 : Option Int) (include_na_information : Bool)
    (hm : method ∈ corr_methods) :
    discover cvScore corrScore df ov1 method rs1
        include_na_information =
      discover cvScore corrScore df ov2 method rs2
        include_na_information := by
  have hrf : (method == "rf") = false := by
    simp only [corr_methods, List.mem_cons, List.mem_singleton] at hm
    rcases hm with rfl | rfl | rfl | h
    · decide
    · decide
    · decide
    · simp at h
  have hpp : ∀ est1 est2 feature target,
      processPair cvScore corrScore df est1 method feature target =
        processPair cvScore corrScore df est2 method feature target := by
    intro est1 est2 feature target
    unfold processPair
    have hs : scoreOf cvScore corrScore est1 method df feature target =
        scoreOf cvScore corrScore est2 method df feature target := by
      simp [scoreOf, hrf]
    rw [hs]
  have hrun : ∀ ps,
      runPairs cvScore corrScore df
          (buildEstimatorMapping df.colNames (ov1.getD []) rs1)
          method ps =
        runPairs cvScore corrScore df
          (buildEstimatorMapping df.colNames (ov2.getD []) rs2)
          method ps := by
    intro ps
    induction ps with
    | nil => rfl
    | cons p rest ih =>
      obtain ⟨feature, target⟩ := p
      unfold runPairs
      rw [hpp _ (estFor (buildEstimatorMapping df.colNames
        (ov2.getD []) rs2) target) feature target, ih]
  have hknown : method ∈ known_methods := by
    unfold known_methods
    exact List.mem_append_left _ hm
  unfold discover
  rw [if_pos hknown, if_pos hknown, hrun]

/-- C10 witness: spearman scores with different seeds and overrides. -/
theorem c10_correlation_ignores_seed_and_overrides_witness :
    discover cv0 corr0 dfW (some ["a"]) "spearman" (some 7) false =
      discover cv0 corr0 dfW none "spearman" none false :=
  c10_correlation_ignores_seed_and_overrides cv0 corr0 dfW
    (some ["a"]) none "spearman" (some 7) none false (by decide)

/-- With every column empty, any column lookup is empty. -/
lemma getCol_nil {df : DataFrame} (hempty : ∀ c ∈ df.cols, c.2 = [])
    (name : String) : df.getCol name = [] := by
  unfold DataFrame.getCol
  cases hfind : df.cols.find? (fun c => c.1 == name) with
  | none => rfl
  | some c => exact hempty c (List.mem_of_find?_eq_some hfind)

/-- C8: on a dataset with zero rows and at least two columns, a
`discover` call with a valid method reaches the unguarded division by
zero in the drop-fraction computation — the whole call fails with the
zero-division error instead of returning any table. -/
theorem c8_zero_rows_division
    (cvScore : Estimator → List Rat → List Rat → Rat)
    (corrScore : String → List Rat → List Rat → Rat)
    (df : DataFrame) (classifier_overrides : Option (List String))
    (method : String) (random_state : Option Int)
    (include_na_information : Bool)
    (hm : method ∈ known_methods) (hcols : 2 ≤ df.cols.length)
    (hempty : ∀ c ∈ df.cols, c.2 = []) :
    discover cvScore corrScore df classifier_overrides method
        random_state include_na_information =
      Except.error DiscoverError.zeroDivision := by
  obtain ⟨c0, c1, rest, hcols_eq⟩ :
      ∃ c0 c1 rest, df.cols = c0 :: c1 :: rest := by
    cases hdf : df.cols with
    | nil => rw [hdf] at hcols; exact absurd hcols (by simp)
    | cons c0 tl =>
      cases htl : tl with
      | nil => rw [hdf, htl] at hcols; exact absurd hcols (by simp)
      | cons c1 rest => exact ⟨c0, c1, rest, rfl⟩
  have hnames : df.colNames = c0.1 :: c1.1 :: rest.map Prod.fst := by
    rw [DataFrame.colNames, hcols_eq]
    rfl
  have hmem : (c1.1, c0.1) ∈ loopPairs df.colNames := by
    unfold loopPairs
    rw [List.mem_flatMap]
    refine ⟨(0, c0.1), ?_, ?_⟩
    · rw [hnames]
      simp [List.enum_cons]
    · rw [List.mem_filterMap]
      refine ⟨(1, c1.1), ?_, by simp⟩
      rw [hnames]
      simp [List.enum_cons, List.enumFrom_cons]
  obtain ⟨q, ps, hlp⟩ : ∃ q ps, loopPairs df.colNames = q :: ps := by
    cases hl : loopPairs df.colNames with
    | nil => rw [hl] at hmem; exact absurd hmem (by simp)
    | cons q ps => exact ⟨q, ps, rfl⟩
  obtain ⟨f, t⟩ := q
  have hq : ∀ est, processPair cvScore corrScore df est method f t =
      Except.error DiscoverError.zeroDivision := by
    intro est
    have h0 : (pairFrame df f t).nRows = 0 := by
      show (df.getCol f).length = 0
      rw [getCol_nil hempty f]
      rfl
    unfold processPair
    rw [if_pos h0]
  unfold discover
  rw [if_pos hm, hlp]
  have hrunp : runPairs cvScore corrScore df
      (buildEstimatorMapping df.colNames
        (classifier_overrides.getD []) random_state)
      method ((f, t) :: ps) = Except.error DiscoverError.zeroDivision := by
    unfold runPairs
    rw [hq _]
  rw [hrunp]

/-- C8 witness: an empty two-column dataset under method `"rf"`. -/
theorem c8_zero_rows_division_witness :
    discover cv0 corr0 ⟨[("a", []), ("b", [])]⟩ none "rf" none false =
      Except.error DiscoverError.zeroDivision :=
  c8_zero_rows_division cv0 corr0 ⟨[("a", []), ("b", [])]⟩ none "rf"
    none false (by decide) (by decide) (by decide)

/-! Helper lemmas: the heap model -/

/-- Allocation leaves existing frames readable unchanged. -/
lemma heapRead_alloc_old {h : Heap} {d : DataFrame} {r : Nat}
    (hr : r < h.length) : heapRead (heapAlloc h d).1 r = heapRead h r := by
  unfold heapAlloc heapRead
  exact List.getD_append _ _ _ _ hr

/-- Allocation grows the heap by one. -/
lemma heapAlloc_length (h : Heap) (d : DataFrame) :
    (heapAlloc h d).1.length = h.length + 1 := by
  simp [heapAlloc]

/-- Reading a freshly allocated frame. -/
lemma heapRead_alloc_new (h : Heap) (d : DataFrame) :
    heapRead (heapAlloc h d).1 (heapAlloc h d).2 = d := by
  unfold heapAlloc heapRead
  simp [List.getD_eq_getElem?_getD, List.getElem?_concat_length]

/-- Writing one frame leaves the others readable unchanged. -/
lemma heapRead_write_ne {h : Heap} {r' r : Nat} {d : DataFrame}
    (hne : r' ≠ r) : heapRead (heapWrite h r' d) r = heapRead h r := by
  unfold heapWrite heapRead
  simp [List.getD_eq_getElem?_getD, List.getElem?_set_ne hne]

/-- Writing keeps the heap's size. -/
lemma heapWrite_length (h : Heap) (r : Nat) (d : DataFrame) :
    (heapWrite h r d).length = h.length := by
  simp [heapWrite]

/-- Reading back a written frame. -/
lemma heapRead_write_self {h : Heap} {r : Nat} {d : DataFrame}
    (hr : r < h.length) : heapRead (heapWrite h r d) r = d := by
  unfold heapWrite heapRead
  simp [List.getD_eq_getElem?_getD, List.getElem?_set_self hr]

/-- The address returned by an allocation. -/
lemma heapAlloc_ref (h : Heap) (d : DataFrame) :
    (heapAlloc h d).2 = h.length := rfl

/-- One encoding step on the heap: the heap only grows, frames below
the old size are untouched, the returned reference is valid, and the
frame it holds is the pure `encodeStep` of the input frame. -/
lemma encodeStep_st_spec (h : Heap) (rr : Nat) (col : String)
    (hrr : rr < h.length) :
    h.length ≤ (encodeStep_st h rr col).1.length ∧
    (encodeStep_st h rr col).2 < (encodeStep_st h rr col).1.length ∧
    (∀ r < h.length,
      heapRead (encodeStep_st h rr col).1 r = heapRead h r) ∧
    heapRead (encodeStep_st h rr col).1 (encodeStep_st h rr col).2 =
      encodeStep (heapRead h rr) col := by
  simp only [encodeStep_st, encodeStep]
  by_cases hobj : colIsObject ((heapRead h rr).getCol col) = true
  · rw [if_pos hobj]
    simp only [dropColumns_st, setColumn_st]
    have hnew := heapRead_alloc_new h
      ⟨(heapRead h rr).cols.filter (fun c => c.1 != col)⟩
    have hlen := heapAlloc_length h
      ⟨(heapRead h rr).cols.filter (fun c => c.1 != col)⟩
    refine ⟨?_, ?_, ?_, ?_⟩
    · rw [heapWrite_length, hlen]
      omega
    · rw [heapWrite_length, hlen, heapAlloc_ref]
      omega
    · intro r hr
      rw [heapRead_write_ne (by rw [heapAlloc_ref]; omega),
        heapRead_alloc_old hr]
    · rw [heapRead_write_self (by rw [heapAlloc_ref, hlen]; omega), hnew,
        if_pos hobj]
  · rw [if_neg hobj]
    refine ⟨Nat.le_refl _, hrr, fun r hr => rfl, ?_⟩
    rw [if_neg hobj]

/-- Folding encoding steps over any column list: heap growth, frame
preservation, and agreement with the pure fold. -/
lemma foldl_encodeStep_st_spec :
    ∀ (cols : List String) (h : Heap) (rr : Nat), rr < h.length →
    h.length ≤
      (cols.foldl (fun s col => encodeStep_st s.1 s.2 col) (h, rr)).1.length ∧
    (cols.foldl (fun s col => encodeStep_st s.1 s.2 col) (h, rr)).2 <
      (cols.foldl (fun s col => encodeStep_st s.1 s.2 col) (h, rr)).1.length ∧
    (∀ r < h.length,
      heapRead (cols.foldl (fun s col => encodeStep_st s.1 s.2 col)
        (h, rr)).1 r = heapRead h r) ∧
    heapRead (cols.foldl (fun s col => encodeStep_st s.1 s.2 col) (h, rr)).1
        (cols.foldl (fun s col => encodeStep_st s.1 s.2 col) (h, rr)).2 =
      cols.foldl encodeStep (heapRead h rr)
  | [], h, rr, hrr => ⟨Nat.le_refl _, hrr, fun r _ => rfl, rfl⟩
  | col :: cols, h, rr, hrr => by
    obtain ⟨hlen1, href1, hpres1, hread1⟩ := encodeStep_st_spec h rr col hrr
    obtain ⟨hlen2, href2, hpres2, hread2⟩ :=
      foldl_encodeStep_st_spec cols (encodeStep_st h rr col).1
        (encodeStep_st h rr col).2 href1
    rw [List.foldl_cons, List.foldl_cons]
    have hstep : (encodeStep_st h rr col).1 = (encodeStep_st h rr col).1 := rfl
    refine ⟨Nat.le_trans hlen1 hlen2, ?_, ?_, ?_⟩
    · exact href2
    · intro r hr
      rw [hpres2 r (Nat.lt_of_lt_of_le hr hlen1), hpres1 r hr]
    · rw [hread2, hread1]

/-- Spec of `labelencode_st`: heap growth, preservation of old frames, and
agreement with the pure `labelencode_if_object`. -/
lemma labelencode_st_spec (h : Heap) (rr : Nat) (hrr : rr < h.length) :
    h.length ≤ (labelencode_st h rr).1.length ∧
    (labelencode_st h rr).2 < (labelencode_st h rr).1.length ∧
    (∀ r < h.length, heapRead (labelencode_st h rr).1 r = heapRead h r) ∧
    heapRead (labelencode_st h rr).1 (labelencode_st h rr).2 =
      labelencode_if_object (heapRead h rr) := by
  unfold labelencode_st labelencode_if_object
  exact foldl_encodeStep_st_spec (heapRead h rr).colNames h rr hrr

/-- The heap version of the pair's loop body: the heap only grows, all
frames that existed before the call — the caller's dataset included —
are unchanged, and the returned outcome is the pure `processPair` of
the dataset found at `dfRef`. -/
lemma processPair_st_spec
    (cvScore : Estimator → List Rat → List Rat → Rat)
    (corrScore : String → List Rat → List Rat → Rat)
    (h : Heap) (dfRef : Nat) (est : Estimator) (method : String)
    (feature target : String) (hdf : dfRef < h.length) :
    h.length ≤
      (processPair_st cvScore corrScore h dfRef est method
        feature target).1.length ∧
    (∀ r < h.length,
      heapRead (processPair_st cvScore corrScore h dfRef est method
        feature target).1 r = heapRead h r) ∧
    (processPair_st cvScore corrScore h dfRef est method
        feature target).2 =
      processPair cvScore corrScore (heapRead h dfRef) est method
        feature target := by
  simp only [processPair_st, processPair, selectPair_st, dropna_st]
  rw [heapRead_alloc_new]
  set df0 := heapRead h dfRef with hdf0
  set pf := pairFrame df0 feature target with hpf
  set s1 := heapAlloc h pf with hs1
  set s2 := heapAlloc s1.1 pf.dropna with hs2
  have l1 : s1.1.length = h.length + 1 := heapAlloc_length ..
  have l2 : s2.1.length = s1.1.length + 1 := heapAlloc_length ..
  have hnew2 : heapRead s2.1 s2.2 = pf.dropna := heapRead_alloc_new ..
  rw [hnew2]
  by_cases h0 : pf.nRows = 0
  · rw [if_pos h0, if_pos h0]
    dsimp only
    refine ⟨by omega, ?_, rfl⟩
    intro r hr
    rw [hs2, heapRead_alloc_old (by omega), hs1, heapRead_alloc_old hr]
  · rw [if_neg h0, if_neg h0]
    dsimp only
    have hr2 : s2.2 < s2.1.length := by
      rw [hs2, heapAlloc_ref, heapAlloc_length s1.1 pf.dropna]
      exact Nat.lt_succ_self _
    obtain ⟨hl3, -, hp3, hread3⟩ := labelencode_st_spec s2.1 s2.2 hr2
    rw [hnew2] at hread3
    refine ⟨by omega, ?_, ?_⟩
    · intro r hr
      rw [hp3 r (by omega), hs2, heapRead_alloc_old (by omega), hs1,
        heapRead_alloc_old hr]
    · rw [hread3]
      simp only [scoreOf, nanInfoOf, preparePair, hpf]

/-- The heap version of the double loop: the heap only grows, frames
that existed before are unchanged, and the outcome agrees with the pure
`runPairs` on the dataset at `dfRef`. -/
lemma runPairs_st_spec
    (cvScore : Estimator → List Rat → List Rat → Rat)
    (corrScore : String → List Rat → List Rat → Rat)
    (mapping : List (String × Estimator)) (method : String) :
    ∀ (ps : List (String × String)) (h : Heap) (dfRef : Nat),
      dfRef < h.length →
    h.length ≤
      (runPairs_st cvScore corrScore h dfRef mapping method ps).1.length ∧
    (∀ r < h.length,
      heapRead (runPairs_st cvScore corrScore h dfRef mapping method
        ps).1 r = heapRead h r) ∧
    (runPairs_st cvScore corrScore h dfRef mapping method ps).2 =
      runPairs cvScore corrScore (heapRead h dfRef) mapping method ps
  | [], h, dfRef, _ => ⟨Nat.le_refl _, fun r _ => rfl, rfl⟩
  | (feature, target) :: rest, h, dfRef, hdf => by
    obtain ⟨hl1, hp1, ho1⟩ := processPair_st_spec cvScore corrScore h dfRef
      (estFor mapping target) method feature target hdf
    rcases hP : processPair_st cvScore corrScore h dfRef
        (estFor mapping target) method feature target with ⟨h1, out⟩
    rw [hP] at hl1 hp1 ho1
    dsimp only at hl1 hp1 ho1
    unfold runPairs_st runPairs
    rw [hP, ← ho1]
    cases out with
    | error e => exact ⟨hl1, hp1, rfl⟩
    | ok r =>
      dsimp only
      obtain ⟨hl2, hp2, ho2⟩ := runPairs_st_spec cvScore corrScore mapping
        method rest h1 dfRef (by omega)
      rcases hQ : runPairs_st cvScore corrScore h1 dfRef mapping method
        rest with ⟨h2, out2⟩
      rw [hQ] at hl2 hp2 ho2
      dsimp only at hl2 hp2 ho2
      have hdfr : heapRead h1 dfRef = heapRead h dfRef := hp1 dfRef hdf
      rw [hdfr] at ho2
      rw [← ho2]
      cases out2 with
      | error e =>
        dsimp only
        exact ⟨by omega, fun r hr => by rw [hp2 r (by omega), hp1 r hr],
          rfl⟩
      | ok rs =>
        dsimp only
        exact ⟨by omega, fun r hr => by rw [hp2 r (by omega), hp1 r hr],
          rfl⟩

/-- C9: `discover` never mutates the caller's dataset.  Run over the
explicit heap, a `discover_st` call leaves every frame that existed
before the call — in particular the dataset at `dfRef` — bit-for-bit
unchanged (the writes of the encoder only touch the pair copies), and
its outcome is exactly the pure `discover` of the dataset read at
`dfRef`. -/
theorem c9_no_mutation
    (cvScore : Estimator → List Rat → List Rat → Rat)
    (corrScore : String → List Rat → List Rat → Rat)
    (h : Heap) (dfRef : Nat)
    (classifier_overrides : Option (List String)) (method : String)
    (random_state : Option Int) (include_na_information : Bool)
    (hdf : dfRef < h.length) :
    (∀ r < h.length,
      heapRead (discover_st cvScore corrScore h dfRef
        classifier_overrides method random_state
        include_na_information).1 r = heapRead h r) ∧
    (discover_st cvScore corrScore h dfRef classifier_overrides method
        random_state include_na_information).2 =
      discover cvScore corrScore (heapRead h dfRef) classifier_overrides
        method random_state include_na_information := by
  unfold discover_st discover
  by_cases hm : method ∈ known_methods
  · rw [if_pos hm, if_pos hm]
    obtain ⟨-, hp, ho⟩ := runPairs_st_spec cvScore corrScore
      (buildEstimatorMapping (heapRead h dfRef).colNames
        (classifier_overrides.getD []) random_state)
      method (loopPairs (heapRead h dfRef).colNames) h dfRef hdf
    rcases hR : runPairs_st cvScore corrScore h dfRef
        (buildEstimatorMapping (heapRead h dfRef).colNames
          (classifier_overrides.getD []) random_state)
        method (loopPairs (heapRead h dfRef).colNames) with ⟨h1, out⟩
    rw [hR] at hp ho
    dsimp only at hp ho
    rw [← ho]
    cases out with
    | error e => exact ⟨hp, rfl⟩
    | ok recs =>
      cases include_na_information with
      | true => exact ⟨hp, rfl⟩
      | false => exact ⟨hp, rfl⟩
  · rw [if_neg hm, if_neg hm]
    exact ⟨fun r _ => rfl, rfl⟩

/-- C9 witness: a singleton heap holding the fixture dataset. -/
theorem c9_no_mutation_witness :
    (∀ r < ([dfW] : Heap).length,
      heapRead (discover_st cv0 corr0 [dfW] 0 none "kendall" none
        false).1 r = heapRead [dfW] r) ∧
    (discover_st cv0 corr0 [dfW] 0 none "kendall" none false).2 =
      discover cv0 corr0 (heapRead [dfW] 0) none "kendall" none false :=
  c9_no_mutation cv0 corr0 [dfW] 0 none "kendall" none false (by decide)

end BeyondCorrelation
